import Mathlib

/-!
Verification of the discrete-event BFT simulator core
(`src/rust/bft_simulator_runtime/src/simulator.rs`) and the record algebra
(`src/rust/librabft_simulator/src/record.rs`).

The Rust code is shallowly embedded as executable Lean definitions:

* `GlobalTime`, `NodeTime` and `Duration` are `i64` in the source and are
  modelled as `Int` (the simulator only adds and compares them).
* The log-normal network-delay sampler draws from a process-wide RNG; it is
  modelled as an oracle `delays : Nat -> Int` held in the simulator state
  together with a cursor `delayIdx`; each `add_delay` call consumes one
  sample, exactly like each `thread_rng` draw in the source.  A sample of the
  source distribution, cast `as i64`, is a nonnegative integer, but none of
  the theorems below needs that bound, so the oracle is unconstrained.
* The `BinaryHeap<ScheduledEvent>` is modelled as a list together with
  `popMax`, which removes a maximal element under the derived order on
  `ScheduledEvent(Reverse(deadline), event)` (that is, a minimal deadline,
  ties broken by the derived `Ord` on `Event`, larger payload first).
* The consensus node is generic in the source (`ConsensusNode`,
  `DataSyncNode`, `ActiveRound` bounds); it is modelled by the record
  `NodeImpl` of its operations, with `&mut self` methods written in explicit
  state-passing style.
* `HashSet` fan-out iteration order is unspecified in the source; it is
  resolved here as first-occurrence order of insertion (`dedupKeepFirst`).
-/

namespace BftSim

/-- Author: dense node index (`Author(usize)` in the source). -/
abbrev Author := Nat

/-- Event: the four event variants of `simulator.rs`, in declaration order
(the order matters: the derived `Ord` used by the heap tie-break follows it).
Field order inside each variant is `receiver`, `sender`, payload. -/
inductive Event (Ntf Req Rsp : Type) where
  | dataSyncNotify (receiver : Author) (sender : Author) (notification : Ntf)
  | dataSyncRequest (receiver : Author) (sender : Author) (request : Req)
  | dataSyncResponse (receiver : Author) (sender : Author) (response : Rsp)
  | updateTimer (author : Author)
  deriving DecidableEq

/-- Comparison mirroring the derived `Ord` on `Event`: variant order as
declared, then fields lexicographically in declaration order. -/
def Event.cmp (cmpN : Ntf → Ntf → Ordering) (cmpQ : Req → Req → Ordering)
    (cmpR : Rsp → Rsp → Ordering) : Event Ntf Req Rsp → Event Ntf Req Rsp → Ordering
  | .dataSyncNotify r1 s1 n1, .dataSyncNotify r2 s2 n2 =>
      (compare r1 r2).then ((compare s1 s2).then (cmpN n1 n2))
  | .dataSyncNotify _ _ _, _ => .lt
  | .dataSyncRequest _ _ _, .dataSyncNotify _ _ _ => .gt
  | .dataSyncRequest r1 s1 q1, .dataSyncRequest r2 s2 q2 =>
      (compare r1 r2).then ((compare s1 s2).then (cmpQ q1 q2))
  | .dataSyncRequest _ _ _, _ => .lt
  | .dataSyncResponse _ _ _, .dataSyncNotify _ _ _ => .gt
  | .dataSyncResponse _ _ _, .dataSyncRequest _ _ _ => .gt
  | .dataSyncResponse r1 s1 p1, .dataSyncResponse r2 s2 p2 =>
      (compare r1 r2).then ((compare s1 s2).then (cmpR p1 p2))
  | .dataSyncResponse _ _ _, _ => .lt
  | .updateTimer a1, .updateTimer a2 => compare a1 a2
  | .updateTimer _, _ => .gt

/-- Actions returned by `update_node` (`NodeUpdateActions` in the runtime).
`next_scheduled_update` is a `NodeTime`. -/
structure NodeUpdateActions where
  next_scheduled_update : Int
  should_send : List Author
  should_broadcast : Bool
  should_query_all : Bool

/-- The abstract node capability set (`ConsensusNode` + `DataSyncNode` bounds
of the source, §4.3 of the spec), with `&mut self`/`&mut context` methods in
state-passing style, plus the payload comparators needed by the heap order. -/
structure NodeImpl (Node Ctx Ntf Req Rsp : Type) where
  update_node : Node → Int → Ctx → Node × Ctx × NodeUpdateActions
  create_notification : Node → Ntf
  create_request : Node → Req
  handle_notification : Node → Ntf → Ctx → Node × Ctx × Option Req
  handle_request : Node → Req → Node × Rsp
  handle_response : Node → Rsp → Ctx → Int → Node × Ctx
  cmpN : Ntf → Ntf → Ordering
  cmpQ : Req → Req → Ordering
  cmpR : Rsp → Rsp → Ordering

/-- `GlobalTime::to_node_time`. -/
def to_node_time (global startup_time : Int) : Int := global - startup_time

/-- `GlobalTime::from_node_time`. -/
def from_node_time (node_time startup_time : Int) : Int := node_time + startup_time

/-- `SimulatedNode`: a node, its context, its startup offset and the timer
cancellation watermark. -/
structure SimulatedNode (Node Ctx : Type) where
  startup_time : Int
  ignore_scheduled_updates_until : Int
  node : Node
  context : Ctx

instance {Node Ctx : Type} [Inhabited Node] [Inhabited Ctx] :
    Inhabited (SimulatedNode Node Ctx) := ⟨⟨0, 0, default, default⟩⟩

/-- `SimulatedNode::update`: convert the global clock to local time and run
`update_node`. -/
def SimulatedNode.update (impl : NodeImpl Node Ctx Ntf Req Rsp)
    (sn : SimulatedNode Node Ctx) (global_clock : Int) :
    SimulatedNode Node Ctx × NodeUpdateActions :=
  let local_clock := to_node_time global_clock sn.startup_time
  let r := impl.update_node sn.node local_clock sn.context
  ({ sn with node := r.1, context := r.2.1 }, r.2.2)

/-- The simulator state: global clock, pending events (heap contents),
nodes, and the delay oracle with its cursor. -/
structure Simulator (Node Ctx Ntf Req Rsp : Type) where
  clock : Int
  pending_events : List (Int × Event Ntf Req Rsp)
  nodes : List (SimulatedNode Node Ctx)
  delays : Nat → Int
  delayIdx : Nat

variable {Node Ctx Ntf Req Rsp : Type}

/-- Heap order on scheduled events: `ScheduledEvent(Reverse(deadline), event)`
compared by the derived lexicographic `Ord` (so the maximum has the smallest
deadline, ties broken by the larger event). -/
def schedCmp (impl : NodeImpl Node Ctx Ntf Req Rsp) :
    Int × Event Ntf Req Rsp → Int × Event Ntf Req Rsp → Ordering :=
  fun x y => (compare y.1 x.1).then (Event.cmp impl.cmpN impl.cmpQ impl.cmpR x.2 y.2)

/-- Remove a maximal element under `cmp` from a list (`BinaryHeap::pop`).
Among equal elements the earliest is taken; `BinaryHeap` leaves that choice
unspecified. -/
def popMax (cmp : α → α → Ordering) : List α → Option (α × List α)
  | [] => none
  | x :: xs =>
    match popMax cmp xs with
    | none => some (x, [])
    | some (m, rest) =>
      if cmp x m = Ordering.lt then some (m, x :: rest) else some (x, xs)

/-- `Simulator::schedule_event`: push onto the heap. -/
def schedule_event (sim : Simulator Node Ctx Ntf Req Rsp) (deadline : Int)
    (event : Event Ntf Req Rsp) : Simulator Node Ctx Ntf Req Rsp :=
  { sim with pending_events := sim.pending_events ++ [(deadline, event)] }

/-- `Simulator::schedule_network_event`: schedule at the current clock plus a
fresh delay sample. -/
def schedule_network_event (sim : Simulator Node Ctx Ntf Req Rsp)
    (event : Event Ntf Req Rsp) : Simulator Node Ctx Ntf Req Rsp :=
  let deadline := sim.clock + sim.delays sim.delayIdx
  schedule_event { sim with delayIdx := sim.delayIdx + 1 } deadline event

/-- Deduplication keeping the first occurrence; resolves the unspecified
`HashSet` iteration order of the two fan-out loops. -/
def dedupKeepFirst : List Author → List Author :=
  List.foldl (fun acc x => if x ∈ acc then acc else acc ++ [x]) []

variable [Inhabited Node] [Inhabited Ctx]

/-- `Simulator::process_node_actions`: schedule the superseding timer, move
the watermark to `new_deadline - 1`, then fan out notifications and queries. -/
def process_node_actions (impl : NodeImpl Node Ctx Ntf Req Rsp)
    (sim : Simulator Node Ctx Ntf Req Rsp) (clock : Int) (author : Author)
    (actions : NodeUpdateActions) : Simulator Node Ctx Ntf Req Rsp :=
  -- Timers
  let node := sim.nodes.getD author default
  let new_deadline :=
    max (from_node_time actions.next_scheduled_update node.startup_time)
      -- Make sure we schedule the update strictly in the future so it does
      -- not get ignored by the watermark check below.
      (clock + 1)
  -- We don't remove the previously scheduled updates; the watermark is meant
  -- to cancel them.
  let sim := { sim with
    nodes := sim.nodes.set author
      ({ node with ignore_scheduled_updates_until := new_deadline + (-1) }) }
  let sim := schedule_event sim new_deadline (Event.updateTimer author)
  -- Notifications
  let receivers := dedupKeepFirst (actions.should_send ++
    (if actions.should_broadcast then
      (List.range sim.nodes.length).filter (fun index => index ≠ author)
    else []))
  let notification := impl.create_notification (sim.nodes.getD author default).node
  let sim := receivers.foldl
    (fun s receiver => schedule_network_event s
      (Event.dataSyncNotify receiver author notification)) sim
  -- Queries
  let senders :=
    if actions.should_query_all then
      (List.range sim.nodes.length).filter (fun index => index ≠ author)
    else []
  let request := impl.create_request (sim.nodes.getD author default).node
  let sim := senders.foldl
    (fun s sender => schedule_network_event s
      (Event.dataSyncRequest author sender request)) sim
  sim

/-- Dispatch one popped event (the `match event` in `loop_until`); `sim` here
already has the popped event removed and `clock` advanced to
`max(deadline, clock)`. -/
def runEvent (impl : NodeImpl Node Ctx Ntf Req Rsp)
    (sim : Simulator Node Ctx Ntf Req Rsp) (event : Event Ntf Req Rsp) :
    Simulator Node Ctx Ntf Req Rsp :=
  let clock := sim.clock
  match event with
  | .updateTimer author =>
    let node := sim.nodes.getD author default
    if clock ≤ node.ignore_scheduled_updates_until then
      -- This scheduled update was invalidated in the meantime.
      sim
    else
      let r := node.update impl clock
      let sim := { sim with nodes := sim.nodes.set author r.1 }
      process_node_actions impl sim clock author r.2
  | .dataSyncNotify receiver sender notification =>
    let node := sim.nodes.getD receiver default
    let h := impl.handle_notification node.node notification node.context
    let node := { node with node := h.1, context := h.2.1 }
    let r := node.update impl clock
    let sim := { sim with nodes := sim.nodes.set receiver r.1 }
    let sim :=
      match h.2.2 with
      | some request =>
        schedule_network_event sim (Event.dataSyncRequest receiver sender request)
      | none => sim
    process_node_actions impl sim clock receiver r.2
  | .dataSyncRequest receiver sender request =>
    let node := sim.nodes.getD sender default
    let hr := impl.handle_request node.node request
    let sim := { sim with nodes := sim.nodes.set sender { node with node := hr.1 } }
    schedule_network_event sim (Event.dataSyncResponse receiver sender hr.2)
  | .dataSyncResponse receiver _sender response =>
    let node := sim.nodes.getD receiver default
    let local_clock := to_node_time clock node.startup_time
    let h := impl.handle_response node.node response node.context local_clock
    let node := { node with node := h.1, context := h.2 }
    let r := node.update impl clock
    let sim := { sim with nodes := sim.nodes.set receiver r.1 }
    process_node_actions impl sim clock receiver r.2

/-- One iteration of the `loop_until` body without the `max_clock` gate: pop
the earliest event, advance the clock to `max(deadline, clock)`, dispatch.
`none` when the queue is empty. -/
def simStep (impl : NodeImpl Node Ctx Ntf Req Rsp)
    (sim : Simulator Node Ctx Ntf Req Rsp) :
    Option (Simulator Node Ctx Ntf Req Rsp) :=
  match popMax (schedCmp impl) sim.pending_events with
  | none => none
  | some ((deadline, event), rest) =>
    some (runEvent impl
      { sim with pending_events := rest, clock := max deadline sim.clock } event)

/-- `Simulator::loop_until` with explicit fuel (the source loop need not
terminate); the statistics sink is out of scope.  The gate compares the
popped deadline against `max_clock` before the clock update, and on `break`
the popped event is already gone from the queue. -/
def loop_until (impl : NodeImpl Node Ctx Ntf Req Rsp) :
    Nat → Int → Simulator Node Ctx Ntf Req Rsp → Simulator Node Ctx Ntf Req Rsp
  | 0, _, sim => sim
  | fuel + 1, max_clock, sim =>
    match popMax (schedCmp impl) sim.pending_events with
    | none => sim
    | some ((deadline, event), rest) =>
      if max_clock < deadline then { sim with pending_events := rest }
      else loop_until impl fuel max_clock
        (runEvent impl
          { sim with pending_events := rest, clock := max deadline sim.clock } event)

/-- Iterate `simStep` (states reachable at loop iterations, for any
sufficiently large `max_clock`). -/
def iterStep (impl : NodeImpl Node Ctx Ntf Req Rsp) :
    Nat → Simulator Node Ctx Ntf Req Rsp → Simulator Node Ctx Ntf Req Rsp
  | 0, sim => sim
  | k + 1, sim =>
    match simStep impl sim with
    | some sim' => iterStep impl k sim'
    | none => sim

/-- `Simulator::new`: node `i` samples `startup_time = 0 + delay_i + 1`,
seeds one `UpdateTimer` at `from_node_time(0, startup_time) = startup_time`,
and starts with watermark `startup_time + (-1)`.  The source builds this with
a `map` over `0..num_nodes`, consuming one delay sample per node. -/
def Simulator.new (numNodes : Nat) (ctxF : Author → Nat → Ctx)
    (nodeF : Author → Ctx → Int → Node) (delays : Nat → Int) :
    Simulator Node Ctx Ntf Req Rsp :=
  { clock := 0
    pending_events := (List.range numNodes).map
      (fun index => (from_node_time 0 (0 + delays index + 1), Event.updateTimer index))
    nodes := (List.range numNodes).map
      (fun index =>
        let context := ctxF index numNodes
        { startup_time := 0 + delays index + 1
          ignore_scheduled_updates_until := 0 + delays index + 1 + (-1)
          node := nodeF index context 0
          context := context })
    delays := delays
    delayIdx := numNodes }

/-- Does the event mention author `a` as an `UpdateTimer`? -/
def timerFor (a : Author) : Event Ntf Req Rsp → Bool
  | .updateTimer b => decide (b = a)
  | _ => false

/-- The cancellation watermark of author `a` in a node list. -/
def wmark (nodes : List (SimulatedNode Node Ctx)) (a : Author) : Int :=
  (nodes.getD a default).ignore_scheduled_updates_until

/-- The receiver set of the notification fan-out of `process_node_actions`:
`should_send` plus, under `should_broadcast`, every other author;
deduplicated in first-insertion order (the `HashSet` of the source). -/
def fanoutReceivers (numNodes : Nat) (author : Author)
    (actions : NodeUpdateActions) : List Author :=
  dedupKeepFirst (actions.should_send ++
    (if actions.should_broadcast then
      (List.range numNodes).filter (fun index => index ≠ author)
    else []))

/-- The sender set of the query fan-out of `process_node_actions`: every
other author when `should_query_all`, else empty. -/
def querySenders (numNodes : Nat) (author : Author)
    (actions : NodeUpdateActions) : List Author :=
  if actions.should_query_all then
    (List.range numNodes).filter (fun index => index ≠ author)
  else []

/-- The network events produced by a fan-out loop: one event per target, each
at the loop's entry clock plus the next fresh delay sample. -/
def netEvents (clock : Int) (delays : Nat → Int) (mk : Author → Event Ntf Req Rsp) :
    Nat → List Author → List (Int × Event Ntf Req Rsp)
  | _, [] => []
  | i, r :: rs => (clock + delays i, mk r) :: netEvents clock delays mk (i + 1) rs

section ListLemmas

variable {α : Type u}

theorem getD_set_self (l : List α) (i : Nat) (x d : α) (h : i < l.length) :
    (l.set i x).getD i d = x := by
  induction l generalizing i with
  | nil => simp at h
  | cons a l ih =>
    cases i with
    | zero => rfl
    | succ i => exact ih i (by simpa using h)

theorem getD_set_ne (l : List α) {i j : Nat} (h : i ≠ j) (x d : α) :
    (l.set i x).getD j d = l.getD j d := by
  induction l generalizing i j with
  | nil => simp
  | cons a l ih =>
    cases i with
    | zero => cases j with
      | zero => exact absurd rfl h
      | succ j => rfl
    | succ i => cases j with
      | zero => rfl
      | succ j => exact ih (fun hh => h (by omega))

theorem set_of_length_le (l : List α) {i : Nat} (h : l.length ≤ i) (x : α) :
    l.set i x = l := by
  induction l generalizing i with
  | nil => rfl
  | cons a l ih =>
    cases i with
    | zero => simp at h
    | succ i => simpa using ih (by simpa using h)

theorem append_cons_middle (p : List α) (t : α) (n1 n2 : List α) :
    p ++ [t] ++ n1 ++ n2 = p ++ t :: (n1 ++ n2) := by simp

theorem append_cons_cons (p : List α) (e t : α) (n1 : List α) :
    p ++ [e] ++ [t] ++ n1 = p ++ e :: t :: n1 := by simp

theorem foldl_dedup_nodup (l acc : List Nat) (h : acc.Nodup) :
    (List.foldl (fun acc x => if x ∈ acc then acc else acc ++ [x]) acc l).Nodup := by
  induction l generalizing acc with
  | nil => exact h
  | cons x l ih =>
    simp only [List.foldl_cons]
    by_cases hx : x ∈ acc
    · rw [if_pos hx]; exact ih acc h
    · rw [if_neg hx]
      exact ih _ (by simp [List.nodup_append, h, hx])

theorem foldl_dedup_mem (l acc : List Nat) (y : Nat) :
    y ∈ List.foldl (fun acc x => if x ∈ acc then acc else acc ++ [x]) acc l ↔
      y ∈ acc ∨ y ∈ l := by
  induction l generalizing acc with
  | nil => simp
  | cons x l ih =>
    simp only [List.foldl_cons]
    by_cases hx : x ∈ acc
    · rw [if_pos hx, ih]
      constructor
      · rintro (h | h)
        · exact Or.inl h
        · exact Or.inr (List.mem_cons_of_mem _ h)
      · rintro (h | h)
        · exact Or.inl h
        · rcases List.mem_cons.mp h with he | hm
          · exact Or.inl (he ▸ hx)
          · exact Or.inr hm
    · rw [if_neg hx, ih]
      simp only [List.mem_append, List.mem_singleton, List.mem_cons]
      tauto

theorem popMax_eq_none_iff (cmp : α → α → Ordering) (l : List α) :
    popMax cmp l = none ↔ l = [] := by
  cases l with
  | nil => simp [popMax]
  | cons x xs =>
    simp only [popMax]
    cases h : popMax cmp xs with
    | none => simp
    | some p => cases p with
      | mk m rest => by_cases hc : cmp x m = Ordering.lt <;> simp [hc]

theorem popMax_perm (cmp : α → α → Ordering) :
    ∀ {l : List α} {m : α} {rest : List α},
      popMax cmp l = some (m, rest) → l.Perm (m :: rest) := by
  intro l
  induction l with
  | nil => intro m rest h; simp [popMax] at h
  | cons x xs ih =>
    intro m rest h
    simp only [popMax] at h
    cases hx : popMax cmp xs with
    | none =>
      rw [hx] at h
      obtain ⟨rfl, rfl⟩ := by simpa using h
      have : xs = [] := (popMax_eq_none_iff cmp xs).mp hx
      subst this
      exact List.Perm.refl _
    | some p =>
      obtain ⟨m', rest'⟩ := p
      rw [hx] at h
      by_cases hc : cmp x m' = Ordering.lt
      · simp only [hc, if_pos rfl] at h
        obtain ⟨rfl, rfl⟩ := by simpa using h
        exact ((ih hx).cons x).trans (List.Perm.swap m' x rest')
      · simp only [if_neg hc] at h
        obtain ⟨rfl, rfl⟩ := by simpa using h
        exact List.Perm.refl _

end ListLemmas

section Characterizations

variable {Node Ctx Ntf Req Rsp : Type} [Inhabited Node] [Inhabited Ctx]

theorem foldl_schedule_network (mk : Author → Event Ntf Req Rsp)
    (rs : List Author) (sim : Simulator Node Ctx Ntf Req Rsp) :
    rs.foldl (fun s r => schedule_network_event s (mk r)) sim =
    { sim with
      pending_events := sim.pending_events ++
        netEvents sim.clock sim.delays mk sim.delayIdx rs
      delayIdx := sim.delayIdx + rs.length } := by
  induction rs generalizing sim with
  | nil => simp [netEvents]
  | cons r rs ih =>
    rw [List.foldl_cons, ih]
    simp only [schedule_network_event, schedule_event, netEvents, List.length_cons]
    congr 1
    · simp
    · omega

theorem node_of_set_watermark (l : List (SimulatedNode Node Ctx)) (a : Nat) (w : Int) :
    ((l.set a ({ l.getD a default with ignore_scheduled_updates_until := w })).getD a
        default).node = (l.getD a default).node := by
  by_cases h : a < l.length
  · rw [getD_set_self _ _ _ _ h]
  · rw [set_of_length_le _ (Nat.le_of_not_lt h)]

/-- Explicit form of `process_node_actions`: the watermark moves to
`new_deadline - 1`, the superseding timer is enqueued at `new_deadline`, then
one notification per deduplicated receiver and one query per other author
(when `should_query_all`), each at the current clock plus a fresh delay
sample. -/
theorem process_node_actions_eq (impl : NodeImpl Node Ctx Ntf Req Rsp)
    (sim : Simulator Node Ctx Ntf Req Rsp) (clock : Int) (a : Author)
    (actions : NodeUpdateActions) :
    process_node_actions impl sim clock a actions =
    (let node := sim.nodes.getD a default
     let newd := max (from_node_time actions.next_scheduled_update node.startup_time)
       (clock + 1)
     let receivers := fanoutReceivers sim.nodes.length a actions
     let senders := querySenders sim.nodes.length a actions
     { clock := sim.clock
       pending_events := sim.pending_events ++ [(newd, Event.updateTimer a)] ++
         netEvents sim.clock sim.delays
           (fun r => Event.dataSyncNotify r a (impl.create_notification node.node))
           sim.delayIdx receivers ++
         netEvents sim.clock sim.delays
           (fun s => Event.dataSyncRequest a s (impl.create_request node.node))
           (sim.delayIdx + receivers.length) senders
       nodes := sim.nodes.set a
         ({ node with ignore_scheduled_updates_until := newd + (-1) })
       delays := sim.delays
       delayIdx := sim.delayIdx + receivers.length + senders.length }) := by
  simp only [process_node_actions, foldl_schedule_network, schedule_event,
    List.length_set, node_of_set_watermark, List.append_assoc, fanoutReceivers,
    querySenders]

theorem netEvents_snd (c : Int) (δ : Nat → Int) (mk : Author → Event Ntf Req Rsp) :
    ∀ (i : Nat) (rs : List Author) (p : Int × Event Ntf Req Rsp),
      p ∈ netEvents c δ mk i rs → ∃ x, p.2 = mk x := by
  intro i rs
  induction rs generalizing i with
  | nil => intro p hp; simp [netEvents] at hp
  | cons r rs ih =>
    intro p hp
    simp only [netEvents] at hp
    rcases List.mem_cons.mp hp with he | hm
    · exact ⟨r, by rw [he]⟩
    · exact ih _ p hm

theorem clock_process_node_actions (impl : NodeImpl Node Ctx Ntf Req Rsp)
    (sim : Simulator Node Ctx Ntf Req Rsp) (clock : Int) (a : Author)
    (actions : NodeUpdateActions) :
    (process_node_actions impl sim clock a actions).clock = sim.clock := by
  simp only [process_node_actions_eq]

theorem clock_runEvent (impl : NodeImpl Node Ctx Ntf Req Rsp)
    (sim : Simulator Node Ctx Ntf Req Rsp) (e : Event Ntf Req Rsp) :
    (runEvent impl sim e).clock = sim.clock := by
  cases e with
  | updateTimer a =>
    simp only [runEvent]
    split
    · rfl
    · rw [clock_process_node_actions]
  | dataSyncNotify r s ntf =>
    simp only [runEvent]
    rw [clock_process_node_actions]
    cases hm : (impl.handle_notification (sim.nodes.getD r default).node ntf
        (sim.nodes.getD r default).context).2.2 <;>
      simp [hm, schedule_network_event, schedule_event]
  | dataSyncRequest r s q =>
    simp [runEvent, schedule_network_event, schedule_event]
  | dataSyncResponse r s rsp =>
    simp only [runEvent]
    rw [clock_process_node_actions]

theorem clock_le_loop_until (impl : NodeImpl Node Ctx Ntf Req Rsp) :
    ∀ (fuel : Nat) (maxClock : Int) (sim : Simulator Node Ctx Ntf Req Rsp),
      sim.clock ≤ (loop_until impl fuel maxClock sim).clock := by
  intro fuel
  induction fuel with
  | zero => intro _ _; exact le_refl _
  | succ fuel ih =>
    intro maxClock sim
    simp only [loop_until]
    cases hp : popMax (schedCmp impl) sim.pending_events with
    | none => exact le_refl _
    | some p =>
      obtain ⟨⟨d, e⟩, rest⟩ := p
      by_cases hgt : maxClock < d
      · simp only [if_pos hgt]
        exact le_refl _
      · simp only [if_neg hgt]
        refine le_trans (le_max_right d sim.clock) ?_
        have hre : (runEvent impl
            { sim with pending_events := rest, clock := max d sim.clock } e).clock =
            max d sim.clock := clock_runEvent _ _ _
        have hmain := ih maxClock
          (runEvent impl { sim with pending_events := rest, clock := max d sim.clock } e)
        rw [hre] at hmain
        exact hmain

/-- Author `a` has a live (effective) pending timer: a pending `UpdateTimer`
whose deadline is strictly above `a`'s cancellation watermark. -/
def HasLiveTimer (sim : Simulator Node Ctx Ntf Req Rsp) (a : Author) : Prop :=
  ∃ p ∈ sim.pending_events, timerFor a p.2 = true ∧ wmark sim.nodes a < p.1

theorem wmark_set_ne (l : List (SimulatedNode Node Ctx)) {i b : Author}
    (x : SimulatedNode Node Ctx) (h : b ≠ i) : wmark (l.set i x) b = wmark l b := by
  unfold wmark
  rw [getD_set_ne l (fun hh => h hh.symm) x default]

theorem wmark_set_preserve (l : List (SimulatedNode Node Ctx)) (i : Author)
    (x : SimulatedNode Node Ctx)
    (h : x.ignore_scheduled_updates_until =
      (l.getD i default).ignore_scheduled_updates_until) (b : Author) :
    wmark (l.set i x) b = wmark l b := by
  by_cases hb : b = i
  · subst hb
    unfold wmark
    by_cases hlen : b < l.length
    · rw [getD_set_self _ _ _ _ hlen, h]
    · rw [set_of_length_le _ (Nat.le_of_not_lt hlen)]
  · exact wmark_set_ne l x hb

theorem wmark_set_node (l : List (SimulatedNode Node Ctx)) (i : Author)
    (nd : Node) (b : Author) :
    wmark (l.set i ({ l.getD i default with node := nd })) b = wmark l b := by
  apply wmark_set_preserve
  rfl

theorem wmark_set_self_lt (l : List (SimulatedNode Node Ctx)) (i : Author)
    (x : SimulatedNode Node Ctx) (h : i < l.length) :
    wmark (l.set i x) i = x.ignore_scheduled_updates_until := by
  unfold wmark
  rw [getD_set_self _ _ _ _ h]

theorem nodes_length_process_node_actions (impl : NodeImpl Node Ctx Ntf Req Rsp)
    (sim : Simulator Node Ctx Ntf Req Rsp) (clock : Int) (a : Author)
    (actions : NodeUpdateActions) :
    (process_node_actions impl sim clock a actions).nodes.length =
      sim.nodes.length := by
  rw [process_node_actions_eq]
  simp [List.length_set]

/-- After `process_node_actions` for author `b`, author `b` has a live
timer: the just-enqueued timer at `new_deadline` beats the watermark
`new_deadline - 1`. -/
theorem live_pna_self (impl : NodeImpl Node Ctx Ntf Req Rsp)
    (sim : Simulator Node Ctx Ntf Req Rsp) (clock : Int) (b : Author)
    (actions : NodeUpdateActions) (h : b < sim.nodes.length) :
    HasLiveTimer (process_node_actions impl sim clock b actions) b := by
  simp only [process_node_actions_eq]
  refine ⟨(max (from_node_time actions.next_scheduled_update
      (sim.nodes.getD b default).startup_time) (clock + 1), Event.updateTimer b),
    ?_, ?_, ?_⟩
  · rw [append_cons_middle]
    exact List.mem_append_right _ (List.mem_cons_self _ _)
  · simp [timerFor]
  · rw [wmark_set_self_lt _ _ _ (by simpa using h)]
    dsimp only
    omega

/-- `process_node_actions` for author `b` keeps any other author's live
timer alive: the watermark of `a ≠ b` is untouched and the pending queue
only grows. -/
theorem live_pna_other (impl : NodeImpl Node Ctx Ntf Req Rsp)
    (sim : Simulator Node Ctx Ntf Req Rsp) (clock : Int) (b : Author)
    (actions : NodeUpdateActions) (a : Author) (hne : a ≠ b)
    (hl : HasLiveTimer sim a) :
    HasLiveTimer (process_node_actions impl sim clock b actions) a := by
  simp only [process_node_actions_eq]
  obtain ⟨p, hp, ht, hw⟩ := hl
  refine ⟨p, ?_, ht, ?_⟩
  · exact List.mem_append_left _ (List.mem_append_left _ (List.mem_append_left _ hp))
  · rw [wmark_set_ne _ _ hne]
    exact hw

/-- One simulator step preserves the every-author-has-a-live-timer
invariant. -/
theorem live_timer_step (impl : NodeImpl Node Ctx Ntf Req Rsp)
    (sim sim' : Simulator Node Ctx Ntf Req Rsp)
    (hstep : simStep impl sim = some sim')
    (hlive : ∀ a, a < sim.nodes.length → HasLiveTimer sim a) :
    ∀ a, a < sim'.nodes.length → HasLiveTimer sim' a := by
  rcases hpop : popMax (schedCmp impl) sim.pending_events with _ | ⟨⟨d, e⟩, rest⟩
  · simp only [simStep, hpop] at hstep
    exact Option.noConfusion hstep
  · simp only [simStep, hpop, Option.some.injEq] at hstep
    subst hstep
    have hperm := popMax_perm (schedCmp impl) hpop
    have hmem : ∀ p : Int × Event Ntf Req Rsp,
        p ∈ sim.pending_events → p ≠ (d, e) → p ∈ rest := by
      intro p hp hne
      rcases List.mem_cons.mp (hperm.mem_iff.mp hp) with h | h
      · exact absurd h hne
      · exact h
    cases e with
    | updateTimer b =>
      simp only [runEvent]
      split
      · -- superseded timer: the state only loses the popped (cancelled) event
        next hc =>
        intro a ha
        obtain ⟨p, hp, ht, hw⟩ := hlive a (by simpa using ha)
        refine ⟨p, ?_, ht, ?_⟩
        · apply hmem p hp
          rintro rfl
          simp only [timerFor, decide_eq_true_eq] at ht
          subst ht
          have hd := le_max_left d sim.clock
          simp only [wmark] at hw
          omega
        · exact hw
      · -- effective timer: update then process the returned actions
        next hc =>
        intro a ha
        have hlen : a < sim.nodes.length := by
          simpa [nodes_length_process_node_actions, List.length_set] using ha
        by_cases hab : a = b
        · subst hab
          exact live_pna_self impl _ _ _ _ (by simpa [List.length_set] using hlen)
        · refine live_pna_other impl _ _ _ _ _ hab ?_
          obtain ⟨p, hp, ht, hw⟩ := hlive a hlen
          have hpe : p ≠ (d, Event.updateTimer b) := by
            rintro rfl
            simp only [timerFor, decide_eq_true_eq] at ht
            exact hab ht.symm
          refine ⟨p, hmem p hp hpe, ht, ?_⟩
          dsimp only
          rw [wmark_set_ne _ _ hab]
          exact hw
    | dataSyncNotify r s ntf =>
      simp only [runEvent]
      rcases hm : (impl.handle_notification (sim.nodes.getD r default).node ntf
          (sim.nodes.getD r default).context).2.2 with _ | req
      · simp only [hm]
        intro a ha
        have hlen : a < sim.nodes.length := by
          simpa [nodes_length_process_node_actions, List.length_set] using ha
        by_cases har : a = r
        · subst har
          exact live_pna_self impl _ _ _ _ (by simpa [List.length_set] using hlen)
        · refine live_pna_other impl _ _ _ _ _ har ?_
          obtain ⟨p, hp, ht, hw⟩ := hlive a hlen
          have hpe : p ≠ (d, Event.dataSyncNotify r s ntf) := by
            rintro rfl
            simp only [timerFor] at ht
            exact Bool.noConfusion ht
          refine ⟨p, hmem p hp hpe, ht, ?_⟩
          dsimp only
          rw [wmark_set_ne _ _ har]
          exact hw
      · simp only [hm, schedule_network_event, schedule_event]
        intro a ha
        have hlen : a < sim.nodes.length := by
          simpa [nodes_length_process_node_actions, List.length_set] using ha
        by_cases har : a = r
        · subst har
          exact live_pna_self impl _ _ _ _ (by simpa [List.length_set] using hlen)
        · refine live_pna_other impl _ _ _ _ _ har ?_
          obtain ⟨p, hp, ht, hw⟩ := hlive a hlen
          have hpe : p ≠ (d, Event.dataSyncNotify r s ntf) := by
            rintro rfl
            simp only [timerFor] at ht
            exact Bool.noConfusion ht
          refine ⟨p, List.mem_append_left _ (hmem p hp hpe), ht, ?_⟩
          dsimp only
          rw [wmark_set_ne _ _ har]
          exact hw
    | dataSyncRequest r s q =>
      simp only [runEvent, schedule_network_event, schedule_event]
      intro a ha
      obtain ⟨p, hp, ht, hw⟩ := hlive a (by simpa [List.length_set] using ha)
      have hpe : p ≠ (d, Event.dataSyncRequest r s q) := by
        rintro rfl
        simp only [timerFor] at ht
        exact Bool.noConfusion ht
      refine ⟨p, List.mem_append_left _ (hmem p hp hpe), ht, ?_⟩
      dsimp only
      rw [wmark_set_node]
      exact hw
    | dataSyncResponse r s rsp =>
      simp only [runEvent]
      intro a ha
      by_cases har : a = r
      · subst har
        exact live_pna_self impl _ _ _ _
          (by simpa [List.length_set] using
            (by simpa [nodes_length_process_node_actions, List.length_set]
              using ha : a < sim.nodes.length))
      · refine live_pna_other impl _ _ _ _ _ har ?_
        obtain ⟨p, hp, ht, hw⟩ := hlive a
          (by simpa [nodes_length_process_node_actions, List.length_set] using ha)
        have hpe : p ≠ (d, Event.dataSyncResponse r s rsp) := by
          rintro rfl
          simp only [timerFor] at ht
          exact Bool.noConfusion ht
        refine ⟨p, hmem p hp hpe, ht, ?_⟩
        dsimp only
        rw [wmark_set_ne _ _ har]
        exact hw

theorem getD_map_range {β : Type v} (n a : Nat) (g : Nat → β) (d : β) (h : a < n) :
    ((List.range n).map g).getD a d = g a := by
  rw [List.getD_eq_getElem _ d (by simpa using h)]
  simp

/-- At construction every author has a live timer: the initial `UpdateTimer`
at `startup_time` beats the initial watermark `startup_time - 1`. -/
theorem live_init (numNodes : Nat) (ctxF : Author → Nat → Ctx)
    (nodeF : Author → Ctx → Int → Node) (delays : Nat → Int) (a : Author)
    (h : a < (Simulator.new numNodes ctxF nodeF delays :
      Simulator Node Ctx Ntf Req Rsp).nodes.length) :
    HasLiveTimer (Simulator.new numNodes ctxF nodeF delays :
      Simulator Node Ctx Ntf Req Rsp) a := by
  have hn : a < numNodes := by simpa [Simulator.new] using h
  refine ⟨(from_node_time 0 (0 + delays a + 1), Event.updateTimer a), ?_, ?_, ?_⟩
  · simp only [Simulator.new, List.mem_map, List.mem_range]
    exact ⟨a, hn, rfl⟩
  · simp [timerFor]
  · simp only [Simulator.new, wmark, getD_map_range _ _ _ _ hn, from_node_time]
    omega

/-- Iterating the step function preserves the live-timer invariant. -/
theorem live_iter (impl : NodeImpl Node Ctx Ntf Req Rsp) :
    ∀ (k : Nat) (sim : Simulator Node Ctx Ntf Req Rsp),
      (∀ a, a < sim.nodes.length → HasLiveTimer sim a) →
      ∀ a, a < (iterStep impl k sim).nodes.length →
        HasLiveTimer (iterStep impl k sim) a := by
  intro k
  induction k with
  | zero => intro sim h a ha; exact h a ha
  | succ k ih =>
    intro sim h a ha
    rcases hs : simStep impl sim with _ | sim'
    · simp only [iterStep, hs] at ha ⊢
      exact h a ha
    · simp only [iterStep, hs] at ha ⊢
      exact ih sim' (live_timer_step impl sim sim' hs h) a ha

end Characterizations

section ConcreteInstances

/-- A concrete two-node instantiation used by witnesses and counterexamples.
Node 0's update asks to be re-entered at local time 100 and unicasts a
notification to node 1; node 1's update asks for local time 0 and sends
nothing.  All payloads are `Unit`. -/
def implA : NodeImpl Nat Unit Unit Unit Unit :=
  { update_node := fun n _ c =>
      (n, c, if n = 0 then
        { next_scheduled_update := 100, should_send := [1]
          should_broadcast := false, should_query_all := false }
      else
        { next_scheduled_update := 0, should_send := []
          should_broadcast := false, should_query_all := false })
    create_notification := fun _ => ()
    create_request := fun _ => ()
    handle_notification := fun n _ c => (n, c, none)
    handle_request := fun n _ => (n, ())
    handle_response := fun n _ c _ => (n, c)
    cmpN := fun _ _ => Ordering.eq
    cmpQ := fun _ _ => Ordering.eq
    cmpR := fun _ _ => Ordering.eq }

/-- Delay oracle for the concrete runs: the second sample (node 1's startup
delay) is 1, all others are 0. -/
def delaysA : Nat → Int := fun i => if i = 1 then 1 else 0

/-- The concrete two-node simulator built by `Simulator::new`. -/
def simA : Simulator Nat Unit Unit Unit Unit :=
  Simulator.new 2 (fun _ _ => ()) (fun a _ _ => a) delaysA

/-- A concrete state whose only pending event is a `DataSyncRequest` at
deadline 3 (for the loop-gate and request-dispatch witnesses). -/
def simB : Simulator Nat Unit Unit Unit Unit :=
  { clock := 0
    pending_events := [(3, Event.dataSyncRequest 0 1 ())]
    nodes := simA.nodes
    delays := delaysA
    delayIdx := 0 }

/-- A concrete instantiation whose `handle_notification` answers with the
follow-up request `7` (requests are `Nat`) and whose updates send nothing. -/
def implB : NodeImpl Nat Unit Unit Nat Unit :=
  { update_node := fun n _ c =>
      (n, c, { next_scheduled_update := 0, should_send := []
               should_broadcast := false, should_query_all := false })
    create_notification := fun _ => ()
    create_request := fun _ => 0
    handle_notification := fun n _ c => (n, c, some 7)
    handle_request := fun n _ => (n, ())
    handle_response := fun n _ c _ => (n, c)
    cmpN := fun _ _ => Ordering.eq
    cmpQ := fun _ _ => Ordering.eq
    cmpR := fun _ _ => Ordering.eq }

/-- A concrete state holding one `DataSyncNotify{receiver = 1, sender = 0}`
at deadline 1, with two nodes whose startup time is 1. -/
def simC : Simulator Nat Unit Unit Nat Unit :=
  { clock := 0
    pending_events := [(1, Event.dataSyncNotify 1 0 ())]
    nodes := [⟨1, 0, 0, ()⟩, ⟨1, 0, 1, ()⟩]
    delays := fun _ => 0
    delayIdx := 0 }

end ConcreteInstances

/-- C3: `process_node_actions` at clock `c` for author `a` computes
`new_deadline = max(from_node_time(actions.next_scheduled_update, startup), c + 1)`,
schedules the `UpdateTimer` at exactly that deadline, sets the watermark to
`new_deadline - 1`, and the enqueued timer is strictly in the future
(`new_deadline > c`) and strictly above the new watermark. -/
theorem C3_timer_discipline {Node Ctx Ntf Req Rsp : Type} [Inhabited Node]
    [Inhabited Ctx] (impl : NodeImpl Node Ctx Ntf Req Rsp)
    (sim : Simulator Node Ctx Ntf Req Rsp) (clock : Int) (a : Author)
    (actions : NodeUpdateActions) (h : a < sim.nodes.length) :
    (∃ tail, (process_node_actions impl sim clock a actions).pending_events =
      sim.pending_events ++
        (max (from_node_time actions.next_scheduled_update
            (sim.nodes.getD a default).startup_time) (clock + 1),
          Event.updateTimer a) :: tail) ∧
    wmark (process_node_actions impl sim clock a actions).nodes a =
      max (from_node_time actions.next_scheduled_update
        (sim.nodes.getD a default).startup_time) (clock + 1) - 1 ∧
    clock < max (from_node_time actions.next_scheduled_update
      (sim.nodes.getD a default).startup_time) (clock + 1) ∧
    wmark (process_node_actions impl sim clock a actions).nodes a <
      max (from_node_time actions.next_scheduled_update
        (sim.nodes.getD a default).startup_time) (clock + 1) := by
  simp only [process_node_actions_eq]
  refine ⟨⟨_, append_cons_middle _ _ _ _⟩, ?_, ?_, ?_⟩
  · simp only [wmark, getD_set_self _ _ _ _ h]
    omega
  · have := le_max_right (from_node_time actions.next_scheduled_update
      (sim.nodes.getD a default).startup_time) (clock + 1)
    omega
  · simp only [wmark, getD_set_self _ _ _ _ h]
    omega

/-- Deduplication produces a list without duplicates. -/
theorem dedupKeepFirst_nodup (l : List Author) : (dedupKeepFirst l).Nodup :=
  foldl_dedup_nodup l [] (by simp)

/-- Deduplication preserves membership. -/
theorem mem_dedupKeepFirst (l : List Author) (y : Author) :
    y ∈ dedupKeepFirst l ↔ y ∈ l := by
  simpa using foldl_dedup_mem l [] y

/-- C8: the notification receiver set of `process_node_actions` is
`should_send`, united — when `should_broadcast` — with every author other
than the acting one, deduplicated; exactly one `DataSyncNotify` is scheduled
per receiver, each carrying the notification produced by a single
`create_notification()` call on the acting author, each at the current clock
plus a fresh delay sample. -/
theorem C8_notification_fanout {Node Ctx Ntf Req Rsp : Type} [Inhabited Node]
    [Inhabited Ctx] (impl : NodeImpl Node Ctx Ntf Req Rsp)
    (sim : Simulator Node Ctx Ntf Req Rsp) (clock : Int) (a : Author)
    (actions : NodeUpdateActions) :
    (fanoutReceivers sim.nodes.length a actions).Nodup ∧
    (∀ r, r ∈ fanoutReceivers sim.nodes.length a actions ↔
      (r ∈ actions.should_send ∨
        (actions.should_broadcast = true ∧ r < sim.nodes.length ∧ r ≠ a))) ∧
    (process_node_actions impl sim clock a actions).pending_events =
      sim.pending_events ++
        [(max (from_node_time actions.next_scheduled_update
            (sim.nodes.getD a default).startup_time) (clock + 1),
          Event.updateTimer a)] ++
        netEvents sim.clock sim.delays
          (fun r => Event.dataSyncNotify r a
            (impl.create_notification (sim.nodes.getD a default).node))
          sim.delayIdx (fanoutReceivers sim.nodes.length a actions) ++
        netEvents sim.clock sim.delays
          (fun s => Event.dataSyncRequest a s
            (impl.create_request (sim.nodes.getD a default).node))
          (sim.delayIdx + (fanoutReceivers sim.nodes.length a actions).length)
          (querySenders sim.nodes.length a actions) := by
  refine ⟨dedupKeepFirst_nodup _, ?_, ?_⟩
  · intro r
    rw [fanoutReceivers, mem_dedupKeepFirst]
    by_cases hb : actions.should_broadcast <;>
      simp [hb, List.mem_filter, List.mem_range]
  · simp only [process_node_actions_eq]

/-- C3, witness: author 0 of the concrete simulator, at clock 5 with a
requested local update time of 0. -/
theorem C3_timer_discipline_witness :
    0 < simA.nodes.length ∧
    (5 : Int) < max (from_node_time 0 (simA.nodes.getD 0 default).startup_time) (5 + 1) :=
  ⟨by decide,
    (C3_timer_discipline implA simA 5 0
      { next_scheduled_update := 0, should_send := []
        should_broadcast := false, should_query_all := false }
      (by decide)).2.2.1⟩

/-- C7: dispatching `DataSyncRequest{receiver, sender, request}` invokes
`handle_request` on the *sender* node (the holder of the queried data) and
schedules exactly one `DataSyncResponse` with the same `sender` and
`receiver` fields at the current clock plus a fresh delay sample; and under
`should_query_all`, `process_node_actions` schedules one
`DataSyncRequest{receiver = acting author, sender = s}` for every other
author `s`, all carrying the request of a single `create_request()` call. -/
theorem C7_request_dispatch {Node Ctx Ntf Req Rsp : Type} [Inhabited Node]
    [Inhabited Ctx] (impl : NodeImpl Node Ctx Ntf Req Rsp)
    (sim : Simulator Node Ctx Ntf Req Rsp) :
    (∀ (d : Int) (r s : Author) (q : Req) rest,
      popMax (schedCmp impl) sim.pending_events =
        some ((d, Event.dataSyncRequest r s q), rest) →
      simStep impl sim = some
        { clock := max d sim.clock
          pending_events := rest ++ [(max d sim.clock + sim.delays sim.delayIdx,
            Event.dataSyncResponse r s
              (impl.handle_request (sim.nodes.getD s default).node q).2)]
          nodes := sim.nodes.set s ({ sim.nodes.getD s default with
            node := (impl.handle_request (sim.nodes.getD s default).node q).1 })
          delays := sim.delays
          delayIdx := sim.delayIdx + 1 }) ∧
    (∀ (clock : Int) (a : Author) (actions : NodeUpdateActions),
      actions.should_query_all = true →
      (process_node_actions impl sim clock a actions).pending_events =
        sim.pending_events ++
          [(max (from_node_time actions.next_scheduled_update
              (sim.nodes.getD a default).startup_time) (clock + 1),
            Event.updateTimer a)] ++
          netEvents sim.clock sim.delays
            (fun r => Event.dataSyncNotify r a
              (impl.create_notification (sim.nodes.getD a default).node))
            sim.delayIdx (fanoutReceivers sim.nodes.length a actions) ++
          netEvents sim.clock sim.delays
            (fun s => Event.dataSyncRequest a s
              (impl.create_request (sim.nodes.getD a default).node))
            (sim.delayIdx + (fanoutReceivers sim.nodes.length a actions).length)
            ((List.range sim.nodes.length).filter (fun index => index ≠ a))) := by
  constructor
  · intro d r s q rest hpop
    simp only [simStep, hpop, runEvent, schedule_network_event, schedule_event]
  · intro clock a actions hq
    simp only [process_node_actions_eq, querySenders, hq, if_pos]

/-- C7, witness: the concrete request-only state; the popped request is
dispatched. -/
theorem C7_request_dispatch_witness :
    popMax (schedCmp implA) simB.pending_events =
        some ((3, Event.dataSyncRequest 0 1 ()), []) ∧
    (simStep implA simB).isSome = true :=
  ⟨rfl, by
    rw [(C7_request_dispatch implA simB).1 3 0 1 () [] rfl]
    rfl⟩

/-- The receiver-side computation of the `DataSyncNotify` dispatch branch:
`handle_notification` on the receiver, then `update` at the current clock.
Returns the updated envelope with the actions, and the optional follow-up
request returned by `handle_notification`. -/
def notifyChain (impl : NodeImpl Node Ctx Ntf Req Rsp)
    (sim : Simulator Node Ctx Ntf Req Rsp) (r : Author) (ntf : Ntf) (c : Int) :
    (SimulatedNode Node Ctx × NodeUpdateActions) × Option Req :=
  let node := sim.nodes.getD r default
  let h := impl.handle_notification node.node ntf node.context
  (SimulatedNode.update impl { node with node := h.1, context := h.2.1 } c, h.2.2)

/-- C2, amended.  Dispatching `DataSyncNotify{receiver, sender, notification}`
invokes `handle_notification` on the receiver and, when it returns
`Some(request)`, schedules exactly one `DataSyncRequest` at the current clock
plus a fresh delay sample whose `sender` field equals the *notification's
sender* and whose `receiver` field equals the *notification's receiver* (the
source passes both fields through unchanged, so the request is handled by the
original sender; the fields are not swapped as the claim states). -/
theorem C2_notify_dispatch_amended {Node Ctx Ntf Req Rsp : Type} [Inhabited Node]
    [Inhabited Ctx] (impl : NodeImpl Node Ctx Ntf Req Rsp)
    (sim : Simulator Node Ctx Ntf Req Rsp) (d : Int) (r s : Author) (ntf : Ntf)
    (rest : List (Int × Event Ntf Req Rsp)) (req : Req)
    (hpop : popMax (schedCmp impl) sim.pending_events =
      some ((d, Event.dataSyncNotify r s ntf), rest))
    (hres : (notifyChain impl sim r ntf (max d sim.clock)).2 = some req)
    (hq : (notifyChain impl sim r ntf (max d sim.clock)).1.2.should_query_all = false) :
    simStep impl sim = some (process_node_actions impl
      { clock := max d sim.clock
        pending_events := rest ++ [(max d sim.clock + sim.delays sim.delayIdx,
          Event.dataSyncRequest r s req)]
        nodes := sim.nodes.set r (notifyChain impl sim r ntf (max d sim.clock)).1.1
        delays := sim.delays
        delayIdx := sim.delayIdx + 1 }
      (max d sim.clock) r (notifyChain impl sim r ntf (max d sim.clock)).1.2) ∧
    (∀ sim', simStep impl sim = some sim' →
      ∃ tail, sim'.pending_events = rest ++
          (max d sim.clock + sim.delays sim.delayIdx,
            Event.dataSyncRequest r s req) :: tail ∧
        ∀ p ∈ tail, ∀ (r' s' : Author) (q' : Req),
          p.2 ≠ Event.dataSyncRequest r' s' q') := by
  have hresU := hres
  simp only [notifyChain] at hresU
  have hmain : simStep impl sim = some (process_node_actions impl
      { clock := max d sim.clock
        pending_events := rest ++ [(max d sim.clock + sim.delays sim.delayIdx,
          Event.dataSyncRequest r s req)]
        nodes := sim.nodes.set r (notifyChain impl sim r ntf (max d sim.clock)).1.1
        delays := sim.delays
        delayIdx := sim.delayIdx + 1 }
      (max d sim.clock) r (notifyChain impl sim r ntf (max d sim.clock)).1.2) := by
    simp only [simStep, hpop, runEvent, notifyChain, hresU, schedule_network_event,
      schedule_event]
  refine ⟨hmain, ?_⟩
  intro sim' hs
  rw [hmain] at hs
  obtain rfl := Option.some.injEq _ _ ▸ hs
  have hsend : querySenders
      (sim.nodes.set r (notifyChain impl sim r ntf (max d sim.clock)).1.1).length r
      (notifyChain impl sim r ntf (max d sim.clock)).1.2 = [] := by
    simp [querySenders, hq]
  rw [process_node_actions_eq]
  simp only [hsend, netEvents, List.append_nil]
  refine ⟨_, append_cons_cons _ _ _ _, ?_⟩
  intro p hp r' s' q'
  rcases List.mem_cons.mp hp with he | hm
  · rw [he]
    simp
  · rcases netEvents_snd _ _ _ _ _ _ hm with ⟨x, hx⟩
    rw [hx]
    simp

/-- C1, counterexample.  Two steps from a freshly constructed two-node
simulator reach a state in which author 1 has *two* pending `UpdateTimer`
events strictly above its watermark: node 0's first timer (deadline 1)
notifies node 1 at clock 1 while node 1's initial timer (deadline 2) is
still pending; the notify-triggered `process_node_actions` sets node 1's
watermark to 1 and enqueues a second timer at deadline 2, leaving both
timers at deadline 2 effective. -/
theorem C1_counterexample :
    (loop_until implA 2 100 simA).pending_events.countP
      (fun p => timerFor 1 p.2 &&
        decide (wmark (loop_until implA 2 100 simA).nodes 1 < p.1)) = 2 := by
  decide

/-- C1, amended.  In every reachable state each author (index within range)
has at least one effective pending `UpdateTimer` — an `UpdateTimer` with
deadline strictly above the author's watermark — but, as the counterexample
shows, delivering a notification (or response) to an author can leave that
author with more than one effective pending timer, so *at most one* does not
hold. -/
theorem C1_live_timer_amended {Node Ctx Ntf Req Rsp : Type} [Inhabited Node]
    [Inhabited Ctx] (impl : NodeImpl Node Ctx Ntf Req Rsp) (numNodes : Nat)
    (ctxF : Author → Nat → Ctx) (nodeF : Author → Ctx → Int → Node)
    (delays : Nat → Int) (k : Nat) (a : Author)
    (h : a < (iterStep impl k (Simulator.new numNodes ctxF nodeF delays)).nodes.length) :
    HasLiveTimer (iterStep impl k (Simulator.new numNodes ctxF nodeF delays)) a :=
  live_iter impl k _ (fun b hb => live_init numNodes ctxF nodeF delays b hb) a h

/-- C1, witness for the amended theorem: after the two counterexample steps,
author 1 still has a live timer. -/
theorem C1_live_timer_amended_witness :
    1 < (iterStep implA 2 (Simulator.new 2 (fun _ _ => ()) (fun a _ _ => a)
      delaysA)).nodes.length ∧
    HasLiveTimer (iterStep implA 2 (Simulator.new 2 (fun _ _ => ()) (fun a _ _ => a)
      delaysA)) 1 :=
  ⟨by decide,
    C1_live_timer_amended implA 2 (fun _ _ => ()) (fun a _ _ => a) delaysA 2 1 (by decide)⟩

/-- C2, counterexample.  A `DataSyncNotify{receiver = 1, sender = 0}` is
delivered and `handle_notification` returns `Some 7`; the claim says the
scheduled `DataSyncRequest` has `receiver = 0` (the notification's sender)
and `sender = 1` (the notification's receiver), but the simulator passes the
fields through unchanged: no `DataSyncRequest{receiver = 0, sender = 1}` is
pending afterwards, while exactly one `DataSyncRequest{receiver = 1,
sender = 0, request = 7}` is. -/
theorem C2_counterexample :
    (notifyChain implB simC 1 () (max 1 simC.clock)).2 = some 7 ∧
    (simStep implB simC).map
      (fun s => s.pending_events.countP
        (fun p => decide (p.2 = Event.dataSyncRequest 0 1 7))) = some 0 ∧
    (simStep implB simC).map
      (fun s => s.pending_events.countP
        (fun p => decide (p.2 = Event.dataSyncRequest 1 0 7))) = some 1 :=
  ⟨rfl, by decide, by decide⟩

/-- C2, witness for the amended theorem: the concrete notify chain. -/
theorem C2_notify_dispatch_amended_witness :
    (notifyChain implB simC 1 () (max 1 simC.clock)).2 = some 7 ∧
    (simStep implB simC).isSome = true :=
  ⟨rfl, by
    rw [(C2_notify_dispatch_amended implB simC 1 1 0 () [] 7 rfl rfl rfl).1]
    rfl⟩

/-- C9: across the iterations of `loop_until` the global clock never
decreases; each iteration sets the clock to the maximum of the popped
deadline and the previous clock, so an event with a past deadline is
processed at the held current clock. -/
theorem C9_monotone_clock {Node Ctx Ntf Req Rsp : Type} [Inhabited Node]
    [Inhabited Ctx] (impl : NodeImpl Node Ctx Ntf Req Rsp) (fuel : Nat)
    (maxClock : Int) (sim : Simulator Node Ctx Ntf Req Rsp) :
    sim.clock ≤ (loop_until impl fuel maxClock sim).clock ∧
    (∀ (d : Int) (e : Event Ntf Req Rsp) rest,
      popMax (schedCmp impl) sim.pending_events = some ((d, e), rest) →
      (runEvent impl { sim with pending_events := rest, clock := max d sim.clock }
          e).clock = max d sim.clock ∧
      sim.clock ≤ max d sim.clock) := by
  refine ⟨clock_le_loop_until impl fuel maxClock sim, ?_⟩
  intro d e rest _
  exact ⟨clock_runEvent _ _ _, le_max_right _ _⟩

/-- C9, witness: one iteration on the concrete request-only state. -/
theorem C9_monotone_clock_witness :
    simB.clock ≤ (loop_until implA 1 10 simB).clock ∧
    (runEvent implA { simB with pending_events := [], clock := max 3 simB.clock }
        (Event.dataSyncRequest 0 1 ())).clock = max 3 simB.clock :=
  ⟨(C9_monotone_clock implA 1 10 simB).1,
    ((C9_monotone_clock implA 1 10 simB).2 3 (Event.dataSyncRequest 0 1 ()) [] rfl).1⟩

/-- C10: when `loop_until` pops an event whose deadline exceeds `max_clock`
it stops, but the popped event is gone: the resulting state is the input
state with exactly that one occurrence removed from the queue, so a later
`loop_until` call can never process it. -/
theorem C10_gate_discards_event {Node Ctx Ntf Req Rsp : Type} [Inhabited Node]
    [Inhabited Ctx] (impl : NodeImpl Node Ctx Ntf Req Rsp) (fuel : Nat)
    (maxClock : Int) (sim : Simulator Node Ctx Ntf Req Rsp) (d : Int)
    (e : Event Ntf Req Rsp) (rest : List (Int × Event Ntf Req Rsp))
    (hpop : popMax (schedCmp impl) sim.pending_events = some ((d, e), rest))
    (hgt : maxClock < d) :
    loop_until impl (fuel + 1) maxClock sim = { sim with pending_events := rest } ∧
    sim.pending_events.Perm ((d, e) :: rest) := by
  constructor
  · simp [loop_until, hpop, hgt]
  · exact popMax_perm _ hpop

/-- C10, witness: the request at deadline 3 is popped and dropped by a run
with `max_clock = 2`. -/
theorem C10_gate_discards_event_witness :
    popMax (schedCmp implA) simB.pending_events =
        some ((3, Event.dataSyncRequest 0 1 ()), []) ∧
    (2 : Int) < 3 ∧
    loop_until implA 1 2 simB = { simB with pending_events := [] } ∧
    simB.pending_events.Perm [(3, Event.dataSyncRequest 0 1 ())] :=
  ⟨rfl, by decide,
    (C10_gate_discards_event implA 0 2 simB 3 (Event.dataSyncRequest 0 1 ()) [] rfl
      (by decide)).1,
    (C10_gate_discards_event implA 0 2 simB 3 (Event.dataSyncRequest 0 1 ()) [] rfl
      (by decide)).2⟩

end BftSim

namespace LibraBFT

/-!
Embedding of `src/rust/librabft_simulator/src/record.rs`.

`base_types.rs` is not part of the given sources; the opaque payload types
`Command` and `State` are kept as type parameters `Cmd`/`State`, the integer
identifiers (`EpochId`, `Round`, `Author`, `BlockHash`,
`QuorumCertificateHash`) are `Nat`, and `NodeTime` is `Int` (i64).
`Signature` is a type parameter `Sig` with the sentinel `Signature(0)` as a
parameter `sig0` and the external signing oracle as a parameter
`sign : Digest -> Author -> Sig` (the spec keeps cryptography abstract).

`Record::digest` runs `DefaultHasher` over exactly the fields fed by the
manual `Hash` impls, in order.  The 64-bit compression of `DefaultHasher` is
modelled as an injective function of that fed field sequence: `digest`
returns the transcript itself, as the variant-tagged tuple of hashed fields
(the derived `Hash` on `Record` feeds the variant discriminant first, which
the constructor tag models).  Which fields are fed — in particular that every
`signature` field and `Timeout::highest_certified_block_round` are *not* —
is taken verbatim from the `Hash` impls of the source. -/

/-- `Block`, fields in source order. -/
structure Block (Cmd Sig : Type) where
  command : Cmd
  time : Int
  previous_quorum_certificate_hash : Nat
  round : Nat
  author : Nat
  signature : Sig
  deriving DecidableEq

/-- `Vote`, fields in source order. -/
structure Vote (State Sig : Type) where
  epoch_id : Nat
  round : Nat
  certified_block_hash : Nat
  state : State
  committed_state : Option State
  author : Nat
  signature : Sig
  deriving DecidableEq

/-- `QuorumCertificate`, fields in source order. -/
structure QuorumCertificate (State Sig : Type) where
  epoch_id : Nat
  round : Nat
  certified_block_hash : Nat
  state : State
  committed_state : Option State
  votes : List (Nat × Sig)
  author : Nat
  signature : Sig
  deriving DecidableEq

/-- `Timeout`, fields in source order. -/
structure Timeout (Sig : Type) where
  epoch_id : Nat
  round : Nat
  highest_certified_block_round : Nat
  author : Nat
  signature : Sig
  deriving DecidableEq

/-- `Record`: the four protocol record variants. -/
inductive Record (Cmd State Sig : Type) where
  | block (b : Block Cmd Sig)
  | vote (v : Vote State Sig)
  | quorumCertificate (qc : QuorumCertificate State Sig)
  | timeout (t : Timeout Sig)
  deriving DecidableEq

/-- The digest transcript: variant tag plus exactly the fields the `Hash`
impls feed, in order.  `Hash for Block` feeds command, time,
previous_quorum_certificate_hash, round, author; `Hash for Vote` feeds
epoch_id, round, certified_block_hash, state, committed_state, author;
`Hash for QuorumCertificate` feeds epoch_id, round, certified_block_hash,
state, committed_state, votes, author; `Hash for Timeout` feeds epoch_id,
round, author only. -/
inductive Digest (Cmd State Sig : Type) where
  | blockD (command : Cmd) (time : Int) (previous_quorum_certificate_hash : Nat)
      (round : Nat) (author : Nat)
  | voteD (epoch_id : Nat) (round : Nat) (certified_block_hash : Nat)
      (state : State) (committed_state : Option State) (author : Nat)
  | quorumCertificateD (epoch_id : Nat) (round : Nat) (certified_block_hash : Nat)
      (state : State) (committed_state : Option State) (votes : List (Nat × Sig))
      (author : Nat)
  | timeoutD (epoch_id : Nat) (round : Nat) (author : Nat)
  deriving DecidableEq

variable {Cmd State Sig : Type}

/-- `Record::digest`: hash the record, excluding every `signature` field and
`Timeout::highest_certified_block_round`. -/
def Record.digest : Record Cmd State Sig → Digest Cmd State Sig
  | .block b => .blockD b.command b.time b.previous_quorum_certificate_hash b.round b.author
  | .vote v => .voteD v.epoch_id v.round v.certified_block_hash v.state v.committed_state v.author
  | .quorumCertificate qc => .quorumCertificateD qc.epoch_id qc.round qc.certified_block_hash
      qc.state qc.committed_state qc.votes qc.author
  | .timeout t => .timeoutD t.epoch_id t.round t.author

/-- `Record::author`. -/
def Record.author : Record Cmd State Sig → Nat
  | .block x => x.author
  | .vote x => x.author
  | .quorumCertificate x => x.author
  | .timeout x => x.author

/-- `Record::signature`. -/
def Record.signature : Record Cmd State Sig → Sig
  | .block x => x.signature
  | .vote x => x.signature
  | .quorumCertificate x => x.signature
  | .timeout x => x.signature

variable (sig0 : Sig) (sign : Digest Cmd State Sig → Nat → Sig)

/-- `Record::make_block`: fill a sentinel signature, hash, then back-patch
the signature with `sign(digest, author)`.  The source's `unreachable!()`
arm is modelled as the identity (it is never taken). -/
def Record.make_block (command : Cmd) (time : Int)
    (previous_quorum_certificate_hash : Nat) (round : Nat) (author : Nat) :
    Record Cmd State Sig :=
  let value : Record Cmd State Sig :=
    .block { command := command, time := time
             previous_quorum_certificate_hash := previous_quorum_certificate_hash
             round := round, author := author, signature := sig0 }
  let hash := value.digest
  match value with
  | .block b => .block { b with signature := sign hash b.author }
  | other => other

/-- `Record::make_vote`. -/
def Record.make_vote (epoch_id : Nat) (round : Nat) (certified_block_hash : Nat)
    (state : State) (author : Nat) (committed_state : Option State) :
    Record Cmd State Sig :=
  let value : Record Cmd State Sig :=
    .vote { epoch_id := epoch_id, round := round
            certified_block_hash := certified_block_hash, state := state
            author := author, signature := sig0, committed_state := committed_state }
  let hash := value.digest
  match value with
  | .vote v => .vote { v with signature := sign hash v.author }
  | other => other

/-- `Record::make_timeout`. -/
def Record.make_timeout (epoch_id : Nat) (round : Nat)
    (highest_certified_block_round : Nat) (author : Nat) : Record Cmd State Sig :=
  let value : Record Cmd State Sig :=
    .timeout { epoch_id := epoch_id, round := round
               highest_certified_block_round := highest_certified_block_round
               author := author, signature := sig0 }
  let hash := value.digest
  match value with
  | .timeout t => .timeout { t with signature := sign hash t.author }
  | other => other

/-- `Record::make_quorum_certificate`. -/
def Record.make_quorum_certificate (epoch_id : Nat) (round : Nat)
    (certified_block_hash : Nat) (state : State) (votes : List (Nat × Sig))
    (committed_state : Option State) (author : Nat) : Record Cmd State Sig :=
  let value : Record Cmd State Sig :=
    .quorumCertificate { epoch_id := epoch_id, round := round
                         certified_block_hash := certified_block_hash, state := state
                         votes := votes, committed_state := committed_state
                         author := author, signature := sig0 }
  let hash := value.digest
  match value with
  | .quorumCertificate qc => .quorumCertificate { qc with signature := sign hash qc.author }
  | other => other

/-- C4, counterexample.  The claim says changing any field other than the
signature changes the digest; but `Hash for Timeout` does not feed
`highest_certified_block_round`, so the two timeouts below differ in that
non-signature field (and only in it: their signatures are equal) while their
digests coincide. -/
theorem C4_counterexample :
    (Record.make_timeout 0 (fun _ _ => 0) 0 0 1 0 : Record Nat Nat Nat).digest =
      (Record.make_timeout 0 (fun _ _ => 0) 0 0 2 0 : Record Nat Nat Nat).digest ∧
    (Record.make_timeout 0 (fun _ _ => 0) 0 0 1 0 : Record Nat Nat Nat).signature =
      (Record.make_timeout 0 (fun _ _ => 0) 0 0 2 0 : Record Nat Nat Nat).signature ∧
    (Record.make_timeout 0 (fun _ _ => 0) 0 0 1 0 : Record Nat Nat Nat) ≠
      Record.make_timeout 0 (fun _ _ => 0) 0 0 2 0 := by
  refine ⟨rfl, rfl, ?_⟩
  decide

/-- C4, amended.  For every record constructor the digest computed with the
sentinel signature in place equals the digest computed after the signature is
back-patched; and changing any field other than the signature — and, for
`Timeout`, other than `highest_certified_block_round`, which `Hash for
Timeout` deliberately omits — changes the digest. -/
theorem C4_amended (Cmd State Sig : Type) (sig0 : Sig)
    (sign : Digest Cmd State Sig → Nat → Sig) :
    (∀ (command : Cmd) (time : Int) (pqch round author : Nat),
      (Record.block { command := command, time := time
                      previous_quorum_certificate_hash := pqch, round := round
                      author := author, signature := sig0 } : Record Cmd State Sig).digest =
        (Record.make_block sig0 sign command time pqch round author).digest) ∧
    (∀ (epoch_id round cbh : Nat) (state : State) (author : Nat)
        (committed_state : Option State),
      (Record.vote { epoch_id := epoch_id, round := round
                     certified_block_hash := cbh, state := state
                     committed_state := committed_state, author := author
                     signature := sig0 } : Record Cmd State Sig).digest =
        (Record.make_vote sig0 sign epoch_id round cbh state author
          committed_state).digest) ∧
    (∀ (epoch_id round cbh : Nat) (state : State) (votes : List (Nat × Sig))
        (committed_state : Option State) (author : Nat),
      (Record.quorumCertificate
          { epoch_id := epoch_id, round := round, certified_block_hash := cbh
            state := state, committed_state := committed_state, votes := votes
            author := author, signature := sig0 } : Record Cmd State Sig).digest =
        (Record.make_quorum_certificate sig0 sign epoch_id round cbh state votes
          committed_state author).digest) ∧
    (∀ (epoch_id round hcbr author : Nat),
      (Record.timeout { epoch_id := epoch_id, round := round
                        highest_certified_block_round := hcbr, author := author
                        signature := sig0 } : Record Cmd State Sig).digest =
        (Record.make_timeout sig0 sign epoch_id round hcbr author).digest) ∧
    (∀ b1 b2 : Block Cmd Sig,
      (Record.block b1 : Record Cmd State Sig).digest = (Record.block b2).digest →
      b1.command = b2.command ∧ b1.time = b2.time ∧
      b1.previous_quorum_certificate_hash = b2.previous_quorum_certificate_hash ∧
      b1.round = b2.round ∧ b1.author = b2.author) ∧
    (∀ v1 v2 : Vote State Sig,
      (Record.vote v1 : Record Cmd State Sig).digest = (Record.vote v2).digest →
      v1.epoch_id = v2.epoch_id ∧ v1.round = v2.round ∧
      v1.certified_block_hash = v2.certified_block_hash ∧ v1.state = v2.state ∧
      v1.committed_state = v2.committed_state ∧ v1.author = v2.author) ∧
    (∀ q1 q2 : QuorumCertificate State Sig,
      (Record.quorumCertificate q1 : Record Cmd State Sig).digest =
          (Record.quorumCertificate q2).digest →
      q1.epoch_id = q2.epoch_id ∧ q1.round = q2.round ∧
      q1.certified_block_hash = q2.certified_block_hash ∧ q1.state = q2.state ∧
      q1.committed_state = q2.committed_state ∧ q1.votes = q2.votes ∧
      q1.author = q2.author) ∧
    (∀ t1 t2 : Timeout Sig,
      (Record.timeout t1 : Record Cmd State Sig).digest = (Record.timeout t2).digest →
      t1.epoch_id = t2.epoch_id ∧ t1.round = t2.round ∧ t1.author = t2.author) := by
  refine ⟨fun _ _ _ _ _ => rfl, fun _ _ _ _ _ _ => rfl, fun _ _ _ _ _ _ _ => rfl,
    fun _ _ _ _ => rfl, ?_, ?_, ?_, ?_⟩ <;>
    intro x1 x2 h <;> simpa [Record.digest] using h

/-- C4, witness for the amended theorem: concrete instances of each
injectivity conjunct, at records that agree on all hashed fields (the blocks
differ only in the signature, so their digests agree definitionally). -/
theorem C4_amended_witness :
    ((Record.block ⟨1, 2, 3, 4, 5, 0⟩ : Record Nat Nat Nat).digest =
        (Record.block ⟨1, 2, 3, 4, 5, 9⟩).digest ∧
      (⟨1, 2, 3, 4, 5, 0⟩ : Block Nat Nat).round = (⟨1, 2, 3, 4, 5, 9⟩ : Block Nat Nat).round) ∧
    ((Record.vote ⟨1, 2, 3, 4, none, 5, 0⟩ : Record Nat Nat Nat).digest =
        (Record.vote ⟨1, 2, 3, 4, none, 5, 9⟩).digest ∧
      (⟨1, 2, 3, 4, none, 5, 0⟩ : Vote Nat Nat).round =
        (⟨1, 2, 3, 4, none, 5, 9⟩ : Vote Nat Nat).round) ∧
    ((Record.quorumCertificate ⟨1, 2, 3, 4, none, [], 5, 0⟩ : Record Nat Nat Nat).digest =
        (Record.quorumCertificate ⟨1, 2, 3, 4, none, [], 5, 9⟩).digest ∧
      (⟨1, 2, 3, 4, none, [], 5, 0⟩ : QuorumCertificate Nat Nat).round =
        (⟨1, 2, 3, 4, none, [], 5, 9⟩ : QuorumCertificate Nat Nat).round) ∧
    ((Record.timeout ⟨1, 2, 3, 4, 0⟩ : Record Nat Nat Nat).digest =
        (Record.timeout ⟨1, 2, 7, 4, 9⟩).digest ∧
      (⟨1, 2, 3, 4, 0⟩ : Timeout Nat).round = (⟨1, 2, 7, 4, 9⟩ : Timeout Nat).round) :=
  ⟨⟨rfl, ((C4_amended Nat Nat Nat 0 (fun _ _ => 0)).2.2.2.2.1 ⟨1, 2, 3, 4, 5, 0⟩
      ⟨1, 2, 3, 4, 5, 9⟩ rfl).2.2.2.1⟩,
   ⟨rfl, ((C4_amended Nat Nat Nat 0 (fun _ _ => 0)).2.2.2.2.2.1 ⟨1, 2, 3, 4, none, 5, 0⟩
      ⟨1, 2, 3, 4, none, 5, 9⟩ rfl).2.1⟩,
   ⟨rfl, ((C4_amended Nat Nat Nat 0 (fun _ _ => 0)).2.2.2.2.2.2.1 ⟨1, 2, 3, 4, none, [], 5, 0⟩
      ⟨1, 2, 3, 4, none, [], 5, 9⟩ rfl).2.1⟩,
   ⟨rfl, ((C4_amended Nat Nat Nat 0 (fun _ _ => 0)).2.2.2.2.2.2.2 ⟨1, 2, 3, 4, 0⟩
      ⟨1, 2, 7, 4, 9⟩ rfl).2.1⟩⟩

/-- C5: every record returned by a constructor satisfies
`signature = sign(digest(r), author(r))` — the signature is back-patched from
the digest computed with the sentinel in place, and that digest equals the
digest of the finished record because hashing excludes the signature. -/
theorem C5_signing_contract (Cmd State Sig : Type) (sig0 : Sig)
    (sign : Digest Cmd State Sig → Nat → Sig) :
    (∀ (command : Cmd) (time : Int) (pqch round author : Nat),
      (Record.make_block sig0 sign command time pqch round author).signature =
        sign (Record.make_block sig0 sign command time pqch round author).digest
          (Record.make_block sig0 sign command time pqch round author).author) ∧
    (∀ (epoch_id round cbh : Nat) (state : State) (author : Nat)
        (committed_state : Option State),
      (Record.make_vote sig0 sign epoch_id round cbh state author
          committed_state).signature =
        sign (Record.make_vote sig0 sign epoch_id round cbh state author
            committed_state).digest
          (Record.make_vote sig0 sign epoch_id round cbh state author
            committed_state).author) ∧
    (∀ (epoch_id round cbh : Nat) (state : State) (votes : List (Nat × Sig))
        (committed_state : Option State) (author : Nat),
      (Record.make_quorum_certificate sig0 sign epoch_id round cbh state votes
          committed_state author).signature =
        sign (Record.make_quorum_certificate sig0 sign epoch_id round cbh state votes
            committed_state author).digest
          (Record.make_quorum_certificate sig0 sign epoch_id round cbh state votes
            committed_state author).author) ∧
    (∀ (epoch_id round hcbr author : Nat),
      (Record.make_timeout sig0 sign epoch_id round hcbr author : Record Cmd State Sig).signature =
        sign (Record.make_timeout sig0 sign epoch_id round hcbr author).digest
          (Record.make_timeout sig0 sign epoch_id round hcbr author).author) :=
  ⟨fun _ _ _ _ _ => rfl, fun _ _ _ _ _ _ => rfl, fun _ _ _ _ _ _ _ => rfl,
    fun _ _ _ _ => rfl⟩

/-- C6: two timeouts from the same author for the same round that differ only
in `highest_certified_block_round` have equal digests — the `Timeout` hash
deliberately excludes that field — and therefore equal signatures. -/
theorem C6_timeout_digest_exclusion (Cmd State Sig : Type) (sig0 : Sig)
    (sign : Digest Cmd State Sig → Nat → Sig) (epoch_id round h1 h2 author : Nat) :
    (Record.make_timeout sig0 sign epoch_id round h1 author : Record Cmd State Sig).digest =
      (Record.make_timeout sig0 sign epoch_id round h2 author).digest ∧
    (Record.make_timeout sig0 sign epoch_id round h1 author : Record Cmd State Sig).signature =
      (Record.make_timeout sig0 sign epoch_id round h2 author).signature :=
  ⟨rfl, rfl⟩

end LibraBFT
